import Mathlib

/-!
Verification of the gongexport video acquisition pipeline.

This file shallowly embeds the parts of `src/utils/videoDownloader.js` and
`src/api/gongExport.js` that the frozen claims are about:

* `downloadVideo` — the per-file download routine with its existence
  short-circuit, unauthenticated-then-authenticated fetch, 429 handling and
  bounded exponential-backoff retry;
* `downloadVideosFromExtensiveCalls` — the batch pipeline that turns a list
  of extensive call records into success/failure outcome lists;
* `respectRateLimit` — the rate limiter state transition;
* `getSignedMediaUrl` — the signed-URL resolver trying PUT(octet-stream),
  PUT(text/plain) and DELETE in order.

Effects are made explicit: the filesystem is a pair of lists (directories and
files), the network is an oracle supplying the outcome of each HTTP request,
and every side effect (rate-limiter invocation, HTTP request, sleep,
directory creation) is recorded in an event trace.  Machine time is `Nat`
milliseconds.  JavaScript truthiness of optional strings (null / undefined /
empty string are all falsy) is modelled by `truthyO`.
-/

set_option autoImplicit false

namespace GongExport

instance exceptDecEq {α β : Type} [DecidableEq α] [DecidableEq β] :
    DecidableEq (Except α β) := fun a b =>
  match a, b with
  | .ok x, .ok y =>
    if h : x = y then .isTrue (by rw [h]) else .isFalse (by simp [h])
  | .ok _, .error _ => .isFalse (by simp)
  | .error _, .ok _ => .isFalse (by simp)
  | .error x, .error y =>
    if h : x = y then .isTrue (by rw [h]) else .isFalse (by simp [h])

/-- JS truthiness for an optional string: `null`/`undefined`/`""` are falsy. -/
def truthyO : Option String → Bool
  | none => false
  | some s => if s = "" then false else true

/-- `o || d` for an optional string, as JavaScript evaluates it. -/
def truthyOr (o : Option String) (d : String) : String :=
  match o with
  | none => d
  | some s => if s = "" then d else s

/-- String interpolation of a possibly-undefined value: JS renders
`undefined` as the literal string "undefined" inside a template literal. -/
def strOfOpt : Option String → String
  | none => "undefined"
  | some s => s

/-- Prefix test on character lists (structurally recursive so that concrete
witnesses reduce in the kernel). -/
def isPrefixCl : List Char → List Char → Bool
  | [], _ => true
  | _ :: _, [] => false
  | a :: as, b :: bs => (a = b) && isPrefixCl as bs

/-- Substring occurrence test on character lists. -/
def isInfixCl (sub : List Char) : List Char → Bool
  | [] => isPrefixCl sub []
  | b :: bs => isPrefixCl sub (b :: bs) || isInfixCl sub bs

/-- `s.includes(sub)`: whether `sub` occurs as a substring of `s`. -/
def containsSubstr (s sub : String) : Bool :=
  isInfixCl sub.toList s.toList

/-- Split a character list on a separator character, as `split(sep)` does. -/
def splitChar (sep : Char) : List Char → List (List Char)
  | [] => [[]]
  | c :: cs =>
    match splitChar sep cs with
    | [] => [[]]
    | g :: gs => if c = sep then [] :: g :: gs else (c :: g) :: gs

/-- Last `/`-separated segment of a URL, as `url.split('/').pop()` computes. -/
def lastSegment (u : String) : String :=
  String.mk ((splitChar '/' u.toList).getLastD [])

/-- `s.toLowerCase()`. -/
def toLowerStr (s : String) : String :=
  String.mk (s.toList.map Char.toLower)

/-- Outcome classification data of a failed axios request, as inspected by the
source: `error.response.status`, the parsed `Retry-After` header,
`error.message === 'socket hang up'`, `error.code === 'ECONNRESET'`,
`error.code === 'ETIMEDOUT'`, and `error.message`. -/
structure HttpError where
  status : Option Nat
  retryAfter : Option Nat
  isSocketHangUp : Bool
  isConnReset : Bool
  isTimedOut : Bool
  msg : String
  deriving DecidableEq, Repr

/-- One network attempt of `downloadVideo`: the result of the unauthenticated
request and, should it fail, of the authenticated one. -/
structure AttemptSpec where
  unauth : Except HttpError Unit
  auth : Except HttpError Unit
  deriving DecidableEq, Repr

/-- Observable side effects of the pipeline. -/
inductive Ev where
  | rateLimitCheck
  | request (url : String) (withAuth : Bool)
  | sleep (ms : Nat)
  | mkdir (dir : String)
  deriving DecidableEq, Repr

/-- Filesystem state: the set of existing directories and files. -/
structure FS where
  dirs : List String
  files : List String
  deriving DecidableEq, Repr

/-- Downloader configuration: the optional custom storage path of the
`VideoDownloader` constructor, and whether `fs.mkdirSync` fails (with what
message) when the storage directory is missing. -/
structure Cfg where
  customStoragePath : Option String
  mkdirFails : Bool
  mkdirErrMsg : String
  deriving DecidableEq, Repr

/-- The default storage directory `path.join(__dirname, '../../exports/videos')`. -/
def defaultVideosDir : String := "exports/videos"

/-- The downloads directory `downloadVideo` resolves (custom path if truthy,
else the default). -/
def dirFor (cfg : Cfg) : String :=
  truthyOr cfg.customStoragePath defaultVideosDir

/-- The destination path `downloadVideo` computes from its `url` and
`filename` arguments: the storage directory joined with the filename, the
latter falling back to the URL's last segment when falsy. -/
def filePathOf (cfg : Cfg) (u : String) (filename : Option String) : String :=
  dirFor cfg ++ "/" ++ truthyOr filename (lastSegment u)

/-- Result of one (recursive) run of `downloadVideo`: the resolved path, the
`return null` outcome, a thrown error message, or exhaustion of the modelled
network oracle (never reached on the traces the theorems consider). -/
inductive DlResult where
  | success (path : String)
  | nullResult
  | thrown (msg : String)
  | fuelOut
  deriving DecidableEq, Repr

/-- The retryable-error test of `downloadVideo`: S3 403/400/404, socket hang
up, `ECONNRESET` or `ETIMEDOUT`. -/
def retryableErr (e : HttpError) (u : String) : Bool :=
  ((e.status = some 403 || e.status = some 400 || e.status = some 404) &&
    containsSubstr u "s3.amazonaws.com") ||
  e.isSocketHangUp || e.isConnReset || e.isTimedOut

/-- Shallow embedding of `VideoDownloader.downloadVideo`.  Faithful to the
source order: empty-URL guard, directory resolution and creation (throwing on
`mkdirSync` failure), filename fallback to the URL's last segment, the
existence short-circuit, then one rate-limited attempt per recursion —
unauthenticated first, authenticated on failure — with 429 restarting at
`retryCount = 0` and the default parameters, retryable errors retrying up to
`maxRetries` before `return null`, and other errors retrying up to
`maxRetries` before rethrowing.  One `AttemptSpec` is consumed per attempt. -/
def downloadVideo (cfg : Cfg) (fs : FS) (url filename : Option String)
    (retryCount maxRetries retryDelay : Nat) (attempts : List AttemptSpec) :
    DlResult × FS × List Ev :=
  match url with
  | none => (.nullResult, fs, [])
  | some u =>
    if u = "" then (.nullResult, fs, [])
    else
      let dir := dirFor cfg
      let mk : Option (FS × List Ev) :=
        if dir ∈ fs.dirs then some (fs, [])
        else if cfg.mkdirFails then none
        else some (⟨dir :: fs.dirs, fs.files⟩, [Ev.mkdir dir])
      match mk with
      | none =>
        (.thrown ("Could not create downloads directory: " ++ cfg.mkdirErrMsg), fs, [])
      | some (fs1, mkEv) =>
        let filePath := filePathOf cfg u filename
        if filePath ∈ fs1.files then (.success filePath, fs1, mkEv)
        else
          match attempts with
          | [] => (.fuelOut, fs1, mkEv)
          | a :: rest =>
            let evBase := mkEv ++ [Ev.rateLimitCheck, Ev.request u false]
            match a.unauth with
            | .ok _ =>
              (.success filePath, ⟨fs1.dirs, filePath :: fs1.files⟩, evBase)
            | .error _ =>
              let ev2 := evBase ++ [Ev.request u true]
              match a.auth with
              | .ok _ =>
                (.success filePath, ⟨fs1.dirs, filePath :: fs1.files⟩, ev2)
              | .error e =>
                if e.status = some 429 then
                  let w := (e.retryAfter.getD 60) * 1000
                  let k := downloadVideo cfg fs1 url filename 0 3 2000 rest
                  (k.1, k.2.1, ev2 ++ Ev.sleep w :: k.2.2)
                else if retryableErr e u then
                  if retryCount < maxRetries then
                    let d := retryDelay * 2 ^ retryCount
                    let k := downloadVideo cfg fs1 url filename (retryCount + 1)
                      maxRetries retryDelay rest
                    (k.1, k.2.1, ev2 ++ Ev.sleep d :: k.2.2)
                  else (.nullResult, fs1, ev2)
                else if retryCount < maxRetries then
                  let d := retryDelay * 2 ^ retryCount
                  let k := downloadVideo cfg fs1 url filename (retryCount + 1)
                    maxRetries retryDelay rest
                  (k.1, k.2.1, ev2 ++ Ev.sleep d :: k.2.2)
                else (.thrown e.msg, fs1, ev2)

/-- The `metaData` object of an extensive call record (optional fields). -/
structure MetaData where
  id : Option String
  title : Option String
  started : Option String
  deriving DecidableEq, Repr

/-- The `media` object of an extensive call record. -/
structure Media where
  videoUrl : Option String
  deriving DecidableEq, Repr

/-- An extensive call record.  `metaData` and `media` may themselves be
absent, matching the source's `call.metaData?.id` / `!call.media` accesses. -/
structure Call where
  metaData : Option MetaData
  media : Option Media
  deriving DecidableEq, Repr

/-- `call.metaData?.id`. -/
def metaIdOf (c : Call) : Option String :=
  c.metaData.bind MetaData.id

/-- `call.metaData?.title || 'Unknown Call'`. -/
def callTitleOf (c : Call) : String :=
  truthyOr (c.metaData.bind MetaData.title) "Unknown Call"

/-- `call.media?.videoUrl` (the embedded media URL, when present). -/
def videoUrlOf (c : Call) : Option String :=
  c.media.bind Media.videoUrl

/-- A recorded success `{callId, title, filePath}`. -/
structure SuccessEntry where
  callId : Option String
  title : String
  filePath : String
  deriving DecidableEq, Repr

/-- The `reason` / `error` variants of a recorded failure. -/
inductive FailReason where
  | reason (r : String)
  | errMsg (m : String)
  deriving DecidableEq, Repr

/-- A recorded failure `{callId, title, reason | error}`. -/
structure FailEntry where
  callId : Option String
  title : String
  why : FailReason
  deriving DecidableEq, Repr

/-- Per-call outcome of the pipeline loop body: a pushed success, a pushed
failure, or exhaustion of the modelled network oracle. -/
inductive POut where
  | succ (e : SuccessEntry)
  | fail (e : FailEntry)
  | hang
  deriving DecidableEq, Repr

/-- External collaborators of the pipeline: whether a refresh callback was
supplied and what it returns (`Except` = the callback threw), the
`new Date(s).toISOString().split('T')[0]` date formatter (`none` = the Date
conversion threw), and the network oracle for the i-th call of the batch. -/
structure Env where
  hasRefreshCallback : Bool
  refresh : String → Except String (Option String)
  formatDate : String → Option String
  attemptsOf : Nat → List AttemptSpec

/-- The `YYYY-MM-DD` prefix computed from `call.metaData?.started`; empty
when the field is falsy or the date conversion throws. -/
def formattedDateFor (env : Env) (c : Call) : String :=
  match c.metaData.bind MetaData.started with
  | none => ""
  | some s => if s = "" then "" else (env.formatDate s).getD ""

/-- `title.replace(/[^a-z0-9]/gi, '_').toLowerCase()`. -/
def sanitizeTitle (t : String) : String :=
  String.mk (t.toList.map (fun ch => if ch.isAlphanum then ch.toLower else '_'))

/-- Extension inferred from the embedded video URL by substring match. -/
def fileExtFor (videoUrl : String) : String :=
  if containsSubstr (toLowerStr videoUrl) ".mp4" then ".mp4"
  else if containsSubstr (toLowerStr videoUrl) ".webm" then ".webm"
  else ".mp4"

/-- The destination filename
`<date_>?<callId>_<sanitized title><ext>` derived in the pipeline loop. -/
def filenameFor (env : Env) (c : Call) (videoUrl : String) : String :=
  let fd := formattedDateFor env c
  (if fd = "" then "" else fd ++ "_") ++ strOfOpt (metaIdOf c) ++ "_" ++
    sanitizeTitle (callTitleOf c) ++ fileExtFor videoUrl

/-- The URL actually downloaded: the refresh callback's URL when the call has
a truthy id, a callback is present and it returns a truthy URL; the embedded
URL when the callback is absent, returns a falsy value, or throws. -/
def freshUrlFor (env : Env) (c : Call) (videoUrl : String) : String :=
  if truthyO (metaIdOf c) && env.hasRefreshCallback then
    match env.refresh (strOfOpt (metaIdOf c)) with
    | .ok ru => if truthyO ru then ru.getD "" else videoUrl
    | .error _ => videoUrl
  else videoUrl

/-- The destination path `downloadVideo` computes for a call of the
pipeline (directory, then the filename with its empty-name fallback). -/
def destPathFor (cfg : Cfg) (env : Env) (c : Call) : String :=
  let vu := (videoUrlOf c).getD ""
  filePathOf cfg (freshUrlFor env c vu) (some (filenameFor env c vu))

/-- One iteration of the `downloadVideosFromExtensiveCalls` loop: the
no-URL guard, filename derivation, refresh attempt, the `downloadVideo`
call, and the classification of its result — including the surrounding
`catch` that turns a thrown error into a per-item failure entry. -/
def processCall (cfg : Cfg) (env : Env) (fs : FS) (idx : Nat) (c : Call) :
    POut × FS × List Ev :=
  let callId := metaIdOf c
  let callTitle := callTitleOf c
  if truthyO (videoUrlOf c) then
    let videoUrl := (videoUrlOf c).getD ""
    let filename := filenameFor env c videoUrl
    let fresh := freshUrlFor env c videoUrl
    let r := downloadVideo cfg fs (some fresh) (some filename) 0 3 2000
      (env.attemptsOf idx)
    match r.1 with
    | .success p => (.succ ⟨callId, callTitle, p⟩, r.2.1, r.2.2)
    | .nullResult =>
      (.fail ⟨callId, callTitle, .reason "Download returned null"⟩, r.2.1, r.2.2)
    | .thrown m =>
      (.fail ⟨some (truthyOr callId "unknown"), callTitle, .errMsg m⟩, r.2.1, r.2.2)
    | .fuelOut => (.hang, r.2.1, r.2.2)
  else
    (.fail ⟨callId, callTitle, .reason "No video URL in extensive call data"⟩, fs, [])

/-- The pipeline loop over the call list, threading the filesystem and
collecting one outcome per record. -/
def processCalls (cfg : Cfg) (env : Env) :
    FS → Nat → List Call → List POut × FS × List Ev
  | fs, _, [] => ([], fs, [])
  | fs, idx, c :: cs =>
    let r := processCall cfg env fs idx c
    let rest := processCalls cfg env r.2.1 (idx + 1) cs
    (r.1 :: rest.1, rest.2.1, r.2.2 ++ rest.2.2)

def succOf : POut → Option SuccessEntry
  | .succ e => some e
  | _ => none

def failOf : POut → Option FailEntry
  | .fail e => some e
  | _ => none

/-- Shallow embedding of `downloadVideosFromExtensiveCalls`: runs the loop
and splits the outcomes into the `downloadedFiles` and `failedDownloads`
accumulators, in push order; the source returns the first component. -/
def downloadVideosFromExtensiveCalls (cfg : Cfg) (env : Env) (fs : FS)
    (calls : List Call) : List SuccessEntry × List FailEntry × FS × List Ev :=
  let r := processCalls cfg env fs 0 calls
  (r.1.filterMap succOf, r.1.filterMap failOf, r.2.1, r.2.2)

/-- The mutable rate-limit counters of the `VideoDownloader` instance. -/
structure RL where
  callsPerSecond : Nat
  callsPerDay : Nat
  currentCalls : Nat
  resetTime : Nat
  lastCallTime : Nat
  deriving DecidableEq, Repr

/-- Milliseconds in 24 hours. -/
def msPerDay : Nat := 24 * 60 * 60 * 1000

/-- `(1000 / callsPerSecond) + 50`: the minimum spacing enforced between
consecutive network calls (50 ms buffer). -/
def minTimeBetweenCalls (rl : RL) : Nat :=
  1000 / rl.callsPerSecond + 50

/-- Shallow embedding of `respectRateLimit`, with the clock made explicit:
given the state and the current time, returns the updated state and the time
at which the wait (if any) completes.  Mirrors the source order: daily-window
reset, daily-ceiling suspension until `resetTime`, then the per-call spacing
sleep; finally `lastCallTime` is set to the post-sleep clock and the call
counter is incremented. -/
def respectRateLimit (rl : RL) (now : Nat) : RL × Nat :=
  let rl1 : RL :=
    if rl.resetTime < now then
      ⟨rl.callsPerSecond, rl.callsPerDay, 0, now + msPerDay, rl.lastCallTime⟩
    else rl
  let rl2 : RL :=
    if rl1.callsPerDay ≤ rl1.currentCalls then
      ⟨rl1.callsPerSecond, rl1.callsPerDay, 0, rl1.resetTime, rl1.lastCallTime⟩
    else rl1
  let t2 : Nat :=
    if rl1.callsPerDay ≤ rl1.currentCalls then now + (rl1.resetTime - now)
    else now
  let timeSince := t2 - rl2.lastCallTime
  let m := minTimeBetweenCalls rl2
  let t3 := if timeSince < m then t2 + (m - timeSince) else t2
  (⟨rl2.callsPerSecond, rl2.callsPerDay, rl2.currentCalls + 1, rl2.resetTime, t3⟩, t3)

/-- Body of a successful signed-URL response: its optional `url` field. -/
structure SBody where
  url : Option String
  deriving DecidableEq, Repr

/-- Network oracle for one `getSignedMediaUrl` run: the outcomes of the
PUT(octet-stream), PUT(text/plain) and DELETE requests, in that order. -/
structure SOracle where
  put1 : Except HttpError SBody
  put2 : Except HttpError SBody
  del : Except HttpError SBody
  deriving DecidableEq, Repr

/-- Whether a signed-URL attempt yields no usable URL: it threw, or it
succeeded with a falsy `url` field. -/
def yieldsNoUrl : Except HttpError SBody → Bool
  | .ok b => !(truthyO b.url)
  | .error _ => true

/-- The DELETE fallback step shared by both failure paths of the second PUT:
returns the DELETE response's URL when truthy, else rethrows the first
attempt's error. -/
def tryDeleteStep (pe : HttpError) (d : Except HttpError SBody) :
    Except HttpError (Option String) :=
  match d with
  | .ok b => if truthyO b.url then .ok (some (b.url.getD "")) else .error pe
  | .error _ => .error pe

/-- Shallow embedding of `GongExport.getSignedMediaUrl`.  PUT(octet-stream)
first: on success the body's truthy `url` is returned, and a success without
a truthy `url` falls through to `return null` with no further attempts.
Only when the first PUT throws are PUT(text/plain) and then DELETE tried;
when neither yields a truthy `url` the original first-attempt error is
rethrown (the outer catch logs and rethrows it unchanged).  The second
component is the trace of network requests performed — note that no
rate-limiter event ever appears in it. -/
def getSignedMediaUrl (callId : String) (o : SOracle) :
    Except HttpError (Option String) × List Ev :=
  let mediaPath := "/v2/calls/" ++ callId ++ "/media"
  let req : Ev := Ev.request mediaPath true
  match o.put1 with
  | .ok b =>
    if truthyO b.url then (.ok (some (b.url.getD "")), [req])
    else (.ok none, [req])
  | .error pe =>
    match o.put2 with
    | .ok b2 =>
      if truthyO b2.url then (.ok (some (b2.url.getD "")), [req, req])
      else (tryDeleteStep pe o.del, [req, req, req])
    | .error _ => (tryDeleteStep pe o.del, [req, req, req])

/-- Event-trace observers. -/
def isRLC : Ev → Bool
  | .rateLimitCheck => true
  | _ => false

def isReq : Ev → Bool
  | .request _ _ => true
  | _ => false

def isUnauthReq : Ev → Bool
  | .request _ false => true
  | _ => false

/-- Count of rate-limiter invocations recorded in a trace. -/
def countRLC (tr : List Ev) : Nat := (tr.filter isRLC).length

/-- Count of HTTP requests recorded in a trace. -/
def countReq (tr : List Ev) : Nat := (tr.filter isReq).length

/-- Count of unauthenticated HTTP requests recorded in a trace. -/
def countUnauthReq (tr : List Ev) : Nat := (tr.filter isUnauthReq).length

/-- The sleep durations of a trace, in order. -/
def sleepsOf (tr : List Ev) : List Nat :=
  tr.filterMap (fun e => match e with | .sleep n => some n | _ => none)

/-- The URLs of the requests of a trace, in order. -/
def reqUrls (tr : List Ev) : List String :=
  tr.filterMap (fun e => match e with | .request u _ => some u | _ => none)

/-- Checks that every authenticated request is immediately preceded by an
unauthenticated request to the same URL (in particular, a trace's first
request is never authenticated, and each attempt carries at most one
authenticated request). -/
def authAfterUnauth : List Ev → Bool
  | [] => true
  | .request u false :: .request u2 true :: rest =>
    (u == u2) && authAfterUnauth rest
  | .request _ true :: _ => false
  | _ :: rest => authAfterUnauth rest

/-- Folding the rate limiter over the rate-limit checks of a trace: how the
`RL` counters evolve across the recorded `respectRateLimit` invocations. -/
def rlAfterTrace (rl : RL) (now : Nat) (tr : List Ev) : RL :=
  (tr.filter isRLC).foldl (fun st _ => (respectRateLimit st now).1) rl

/-- Concrete fixtures used by witnesses and counterexamples. -/
def e403 : HttpError :=
  ⟨some 403, none, false, false, false, "Request failed with status code 403"⟩

def e500 : HttpError :=
  ⟨some 500, none, false, false, false, "Request failed with status code 500"⟩

def failSpec : AttemptSpec := ⟨.error e403, .error e403⟩

def okSpec : AttemptSpec := ⟨.ok (), .ok ()⟩

def cfg0 : Cfg := ⟨none, false, ""⟩

def fs0 : FS := ⟨["exports/videos"], []⟩

def call1 : Call :=
  ⟨some ⟨some "c1", some "Weekly Sync", some "2024-03-01T10:00:00Z"⟩,
   some ⟨some "https://s3.amazonaws.com/a.mp4"⟩⟩

def callNoUrl : Call := ⟨some ⟨some "c3", some "No Media", none⟩, none⟩

/-- An environment with no refresh callback, a fixed date formatter and the
given per-call network oracle. -/
def envOf (ats : Nat → List AttemptSpec) : Env :=
  ⟨false, fun _ => .error "refresh failed", fun _ => some "2024-03-01", ats⟩

/-! ### Lemmas and claim theorems -/

theorem dv_none (cfg : Cfg) (fs : FS) (fn : Option String) (r m d : Nat)
    (ats : List AttemptSpec) :
    downloadVideo cfg fs none fn r m d ats = (.nullResult, fs, []) := by
  simp [downloadVideo]

theorem dv_empty (cfg : Cfg) (fs : FS) (fn : Option String) (r m d : Nat)
    (ats : List AttemptSpec) :
    downloadVideo cfg fs (some "") fn r m d ats = (.nullResult, fs, []) := by
  simp [downloadVideo]

theorem dv_exists (cfg : Cfg) (fs : FS) (u : String) (fn : Option String)
    (r m d : Nat) (ats : List AttemptSpec) (hu : u ≠ "")
    (hdir : dirFor cfg ∈ fs.dirs) (hf : filePathOf cfg u fn ∈ fs.files) :
    downloadVideo cfg fs (some u) fn r m d ats =
      (.success (filePathOf cfg u fn), fs, []) := by
  cases ats with
  | nil => simp [downloadVideo, hu, hdir, hf]
  | cons a rest => simp [downloadVideo, hu, hdir, hf]

theorem dv_unauth_ok (cfg : Cfg) (fs : FS) (u : String) (fn : Option String)
    (r m d : Nat) (a : AttemptSpec) (rest : List AttemptSpec)
    (hu : u ≠ "") (hdir : dirFor cfg ∈ fs.dirs)
    (hnf : filePathOf cfg u fn ∉ fs.files) (ha : a.unauth = .ok ()) :
    downloadVideo cfg fs (some u) fn r m d (a :: rest) =
      (.success (filePathOf cfg u fn),
       ⟨fs.dirs, filePathOf cfg u fn :: fs.files⟩,
       [Ev.rateLimitCheck, Ev.request u false]) := by
  simp [downloadVideo, hu, hdir, hnf, ha]



theorem dv_fuelOut (cfg : Cfg) (fs : FS) (u : String) (fn : Option String)
    (r m d : Nat) (hu : u ≠ "") (hdir : dirFor cfg ∈ fs.dirs)
    (hnf : filePathOf cfg u fn ∉ fs.files) :
    downloadVideo cfg fs (some u) fn r m d [] = (.fuelOut, fs, []) := by
  simp [downloadVideo, hu, hdir, hnf]

theorem dv_auth_ok (cfg : Cfg) (fs : FS) (u : String) (fn : Option String)
    (r m d : Nat) (a : AttemptSpec) (rest : List AttemptSpec) (e1 : HttpError)
    (hu : u ≠ "") (hdir : dirFor cfg ∈ fs.dirs)
    (hnf : filePathOf cfg u fn ∉ fs.files) (ha : a.unauth = .error e1)
    (hb : a.auth = .ok ()) :
    downloadVideo cfg fs (some u) fn r m d (a :: rest) =
      (.success (filePathOf cfg u fn),
       ⟨fs.dirs, filePathOf cfg u fn :: fs.files⟩,
       [Ev.rateLimitCheck, Ev.request u false, Ev.request u true]) := by
  simp [downloadVideo, hu, hdir, hnf, ha, hb]

theorem dv_429 (cfg : Cfg) (fs : FS) (u : String) (fn : Option String)
    (r m d : Nat) (a : AttemptSpec) (rest : List AttemptSpec)
    (e1 e : HttpError) (hu : u ≠ "") (hdir : dirFor cfg ∈ fs.dirs)
    (hnf : filePathOf cfg u fn ∉ fs.files) (ha : a.unauth = .error e1)
    (hb : a.auth = .error e) (h429 : e.status = some 429) :
    downloadVideo cfg fs (some u) fn r m d (a :: rest) =
      ((downloadVideo cfg fs (some u) fn 0 3 2000 rest).1,
       (downloadVideo cfg fs (some u) fn 0 3 2000 rest).2.1,
       Ev.rateLimitCheck :: Ev.request u false :: Ev.request u true ::
         Ev.sleep ((e.retryAfter.getD 60) * 1000) ::
         (downloadVideo cfg fs (some u) fn 0 3 2000 rest).2.2) := by
  conv_lhs => rw [downloadVideo.eq_def]
  simp [hu, hdir, hnf, ha, hb, h429]

theorem dv_retry_step (cfg : Cfg) (fs : FS) (u : String) (fn : Option String)
    (r m d : Nat) (a : AttemptSpec) (rest : List AttemptSpec)
    (e1 e : HttpError) (hu : u ≠ "") (hdir : dirFor cfg ∈ fs.dirs)
    (hnf : filePathOf cfg u fn ∉ fs.files) (ha : a.unauth = .error e1)
    (hb : a.auth = .error e) (h429 : ¬ e.status = some 429) (hlt : r < m) :
    downloadVideo cfg fs (some u) fn r m d (a :: rest) =
      ((downloadVideo cfg fs (some u) fn (r + 1) m d rest).1,
       (downloadVideo cfg fs (some u) fn (r + 1) m d rest).2.1,
       Ev.rateLimitCheck :: Ev.request u false :: Ev.request u true ::
         Ev.sleep (d * 2 ^ r) ::
         (downloadVideo cfg fs (some u) fn (r + 1) m d rest).2.2) := by
  conv_lhs => rw [downloadVideo.eq_def]
  by_cases hr : retryableErr e u <;>
    simp [hu, hdir, hnf, ha, hb, h429, hr, hlt]

theorem dv_retryable_exhausted (cfg : Cfg) (fs : FS) (u : String)
    (fn : Option String) (r m d : Nat) (a : AttemptSpec)
    (rest : List AttemptSpec) (e1 e : HttpError) (hu : u ≠ "")
    (hdir : dirFor cfg ∈ fs.dirs) (hnf : filePathOf cfg u fn ∉ fs.files)
    (ha : a.unauth = .error e1) (hb : a.auth = .error e)
    (h429 : ¬ e.status = some 429) (hr : retryableErr e u = true)
    (hge : ¬ r < m) :
    downloadVideo cfg fs (some u) fn r m d (a :: rest) =
      (.nullResult, fs,
       [Ev.rateLimitCheck, Ev.request u false, Ev.request u true]) := by
  simp [downloadVideo, hu, hdir, hnf, ha, hb, h429, hr, hge]

theorem dv_other_exhausted (cfg : Cfg) (fs : FS) (u : String)
    (fn : Option String) (r m d : Nat) (a : AttemptSpec)
    (rest : List AttemptSpec) (e1 e : HttpError) (hu : u ≠ "")
    (hdir : dirFor cfg ∈ fs.dirs) (hnf : filePathOf cfg u fn ∉ fs.files)
    (ha : a.unauth = .error e1) (hb : a.auth = .error e)
    (h429 : ¬ e.status = some 429) (hr : retryableErr e u = false)
    (hge : ¬ r < m) :
    downloadVideo cfg fs (some u) fn r m d (a :: rest) =
      (.thrown e.msg, fs,
       [Ev.rateLimitCheck, Ev.request u false, Ev.request u true]) := by
  simp [downloadVideo, hu, hdir, hnf, ha, hb, h429, hr, hge]

theorem dv_mkdir_fail (cfg : Cfg) (fs : FS) (u : String) (fn : Option String)
    (r m d : Nat) (ats : List AttemptSpec) (hu : u ≠ "")
    (hdir : dirFor cfg ∉ fs.dirs) (hmk : cfg.mkdirFails = true) :
    downloadVideo cfg fs (some u) fn r m d ats =
      (.thrown ("Could not create downloads directory: " ++ cfg.mkdirErrMsg),
       fs, []) := by
  cases ats with
  | nil => simp [downloadVideo, hu, hdir, hmk]
  | cons a rest => simp [downloadVideo, hu, hdir, hmk]



theorem dv_mkdir_ok (cfg : Cfg) (fs : FS) (u : String) (fn : Option String)
    (r m d : Nat) (ats : List AttemptSpec) (hu : u ≠ "")
    (hdir : dirFor cfg ∉ fs.dirs) (hmk : cfg.mkdirFails = false) :
    downloadVideo cfg fs (some u) fn r m d ats =
      ((downloadVideo cfg ⟨dirFor cfg :: fs.dirs, fs.files⟩ (some u) fn r m d ats).1,
       (downloadVideo cfg ⟨dirFor cfg :: fs.dirs, fs.files⟩ (some u) fn r m d ats).2.1,
       Ev.mkdir (dirFor cfg) ::
         (downloadVideo cfg ⟨dirFor cfg :: fs.dirs, fs.files⟩ (some u) fn r m d ats).2.2) := by
  cases ats with
  | nil =>
    conv_lhs => rw [downloadVideo.eq_def]
    conv_rhs => rw [downloadVideo.eq_def]
    by_cases hf : filePathOf cfg u fn ∈ fs.files <;>
      simp [hu, hdir, hmk, hf]
  | cons a rest =>
    conv_lhs => rw [downloadVideo.eq_def]
    conv_rhs => rw [downloadVideo.eq_def]
    by_cases hf : filePathOf cfg u fn ∈ fs.files
    · simp [hu, hdir, hmk, hf]
    · cases hau : a.unauth with
      | ok v => simp [hu, hdir, hmk, hf, hau]
      | error e1 =>
        cases hat : a.auth with
        | ok v => simp [hu, hdir, hmk, hf, hau, hat]
        | error e =>
          by_cases h429 : e.status = some 429
          · simp [hu, hdir, hmk, hf, hau, hat, h429]
          · by_cases hr : retryableErr e u <;> by_cases hlt : r < m <;>
              simp [hu, hdir, hmk, hf, hau, hat, h429, hr, hlt]

theorem aau_nil : authAfterUnauth [] = true := rfl

theorem aau_rlc (tr : List Ev) :
    authAfterUnauth (Ev.rateLimitCheck :: tr) = authAfterUnauth tr := rfl

theorem aau_sleep (n : Nat) (tr : List Ev) :
    authAfterUnauth (Ev.sleep n :: tr) = authAfterUnauth tr := rfl

theorem aau_mkdir (s : String) (tr : List Ev) :
    authAfterUnauth (Ev.mkdir s :: tr) = authAfterUnauth tr := rfl

theorem aau_pair (u u2 : String) (tr : List Ev) :
    authAfterUnauth (Ev.request u false :: Ev.request u2 true :: tr) =
      ((u == u2) && authAfterUnauth tr) := rfl

theorem aau_unauth_nil (u : String) :
    authAfterUnauth [Ev.request u false] = true := rfl



theorem dv_trace_props : ∀ (ats : List AttemptSpec) (cfg : Cfg) (fs : FS)
    (url fn : Option String) (r m d : Nat),
    authAfterUnauth (downloadVideo cfg fs url fn r m d ats).2.2 = true ∧
    countRLC (downloadVideo cfg fs url fn r m d ats).2.2 =
      countUnauthReq (downloadVideo cfg fs url fn r m d ats).2.2 ∧
    ∀ x ∈ reqUrls (downloadVideo cfg fs url fn r m d ats).2.2, url = some x := by
  intro ats
  induction ats with
  | nil =>
    intro cfg fs url fn r m d
    match url with
    | none => simp [dv_none, countRLC, countUnauthReq, reqUrls, authAfterUnauth]
    | some u =>
      by_cases hu : u = ""
      · subst hu; simp [dv_empty, countRLC, countUnauthReq, reqUrls, authAfterUnauth]
      · by_cases hdir : dirFor cfg ∈ fs.dirs
        · by_cases hf : filePathOf cfg u fn ∈ fs.files
          · rw [dv_exists cfg fs u fn r m d [] hu hdir hf]
            simp [countRLC, countUnauthReq, reqUrls, authAfterUnauth, isRLC, isUnauthReq]
          · rw [dv_fuelOut cfg fs u fn r m d hu hdir hf]
            simp [countRLC, countUnauthReq, reqUrls, authAfterUnauth, isRLC, isUnauthReq]
        · by_cases hmk : cfg.mkdirFails
          · rw [dv_mkdir_fail cfg fs u fn r m d [] hu hdir hmk]
            simp [countRLC, countUnauthReq, reqUrls, authAfterUnauth, isRLC, isUnauthReq]
          · rw [dv_mkdir_ok cfg fs u fn r m d [] hu hdir (by simp [hmk])]
            have hdir2 : dirFor cfg ∈ (FS.mk (dirFor cfg :: fs.dirs) fs.files).dirs := by
              simp
            by_cases hf : filePathOf cfg u fn ∈ fs.files
            · rw [dv_exists cfg _ u fn r m d [] hu hdir2 hf]
              simp [countRLC, countUnauthReq, reqUrls, authAfterUnauth, isRLC, isUnauthReq]
            · rw [dv_fuelOut cfg _ u fn r m d hu hdir2 hf]
              simp [countRLC, countUnauthReq, reqUrls, authAfterUnauth, isRLC, isUnauthReq]
  | cons a rest ih =>
    intro cfg fs url fn r m d
    match url with
    | none => simp [dv_none, countRLC, countUnauthReq, reqUrls, authAfterUnauth]
    | some u =>
      by_cases hu : u = ""
      · subst hu; simp [dv_empty, countRLC, countUnauthReq, reqUrls, authAfterUnauth]
      · have main : ∀ fs2 : FS, dirFor cfg ∈ fs2.dirs →
            authAfterUnauth (downloadVideo cfg fs2 (some u) fn r m d (a :: rest)).2.2 = true ∧
            countRLC (downloadVideo cfg fs2 (some u) fn r m d (a :: rest)).2.2 =
              countUnauthReq (downloadVideo cfg fs2 (some u) fn r m d (a :: rest)).2.2 ∧
            ∀ x ∈ reqUrls (downloadVideo cfg fs2 (some u) fn r m d (a :: rest)).2.2,
              (some u : Option String) = some x := by
          intro fs2 hdir2
          by_cases hf : filePathOf cfg u fn ∈ fs2.files
          · rw [dv_exists cfg fs2 u fn r m d (a :: rest) hu hdir2 hf]
            simp [countRLC, countUnauthReq, reqUrls, authAfterUnauth, isRLC, isUnauthReq]
          · cases hau : a.unauth with
            | ok v =>
              rw [dv_unauth_ok cfg fs2 u fn r m d a rest hu hdir2 hf hau]
              simp [countRLC, countUnauthReq, reqUrls, authAfterUnauth, isRLC, isUnauthReq]
            | error e1 =>
              cases hat : a.auth with
              | ok v =>
                rw [dv_auth_ok cfg fs2 u fn r m d a rest e1 hu hdir2 hf hau hat]
                simp [countRLC, countUnauthReq, reqUrls, authAfterUnauth, isRLC, isUnauthReq, aau_pair]
              | error e =>
                by_cases h429 : e.status = some 429
                · rw [dv_429 cfg fs2 u fn r m d a rest e1 e hu hdir2 hf hau hat h429]
                  have := ih cfg fs2 (some u) fn 0 3 2000
                  simp [countRLC, countUnauthReq, reqUrls, authAfterUnauth, isRLC, isUnauthReq,
                    aau_rlc, aau_pair, aau_sleep] at this ⊢
                  exact this
                · by_cases hlt : r < m
                  · rw [dv_retry_step cfg fs2 u fn r m d a rest e1 e hu hdir2 hf hau hat h429 hlt]
                    have := ih cfg fs2 (some u) fn (r + 1) m d
                    simp [countRLC, countUnauthReq, reqUrls, authAfterUnauth, isRLC, isUnauthReq,
                      aau_rlc, aau_pair, aau_sleep] at this ⊢
                    exact this
                  · by_cases hr : retryableErr e u
                    · rw [dv_retryable_exhausted cfg fs2 u fn r m d a rest e1 e hu hdir2 hf hau hat h429 hr hlt]
                      simp [countRLC, countUnauthReq, reqUrls, authAfterUnauth, isRLC, isUnauthReq, aau_pair]
                    · rw [dv_other_exhausted cfg fs2 u fn r m d a rest e1 e hu hdir2 hf hau hat h429 (by simp [hr]) hlt]
                      simp [countRLC, countUnauthReq, reqUrls, authAfterUnauth, isRLC, isUnauthReq, aau_pair]
        by_cases hdir : dirFor cfg ∈ fs.dirs
        · exact main fs hdir
        · by_cases hmk : cfg.mkdirFails
          · rw [dv_mkdir_fail cfg fs u fn r m d (a :: rest) hu hdir hmk]
            simp [countRLC, countUnauthReq, reqUrls, authAfterUnauth, isRLC, isUnauthReq]
          · rw [dv_mkdir_ok cfg fs u fn r m d (a :: rest) hu hdir (by simp [hmk])]
            have h2 := main ⟨dirFor cfg :: fs.dirs, fs.files⟩ (by simp)
            simpa [countRLC, countUnauthReq, reqUrls, authAfterUnauth, isRLC, isUnauthReq] using h2

/-- C10: for every invocation of `downloadVideo` with a null, undefined or
empty URL, the function returns null, raises nothing, performs no directory
creation, file write, network request or rate-limiter interaction (the event
trace is empty and the filesystem is returned unchanged), and consequently
any rate-limit state is left untouched. -/
theorem c10_empty_url_frame (cfg : Cfg) (fs : FS) (url fn : Option String)
    (r m d : Nat) (ats : List AttemptSpec)
    (h : url = none ∨ url = some "") :
    (downloadVideo cfg fs url fn r m d ats).1 = DlResult.nullResult ∧
    (downloadVideo cfg fs url fn r m d ats).2.1 = fs ∧
    (downloadVideo cfg fs url fn r m d ats).2.2 = [] ∧
    ∀ rl now, rlAfterTrace rl now (downloadVideo cfg fs url fn r m d ats).2.2 = rl := by
  rcases h with h | h <;> subst h
  · simp [dv_none, rlAfterTrace]
  · simp [dv_empty, rlAfterTrace]

theorem c10_empty_url_frame_witness :
    (downloadVideo ⟨none, false, ""⟩ ⟨[], []⟩ none none 0 3 2000 []).1 = DlResult.nullResult ∧
    (downloadVideo ⟨none, false, ""⟩ ⟨[], []⟩ none none 0 3 2000 []).2.1 = (⟨[], []⟩ : FS) ∧
    (downloadVideo ⟨none, false, ""⟩ ⟨[], []⟩ none none 0 3 2000 []).2.2 = [] ∧
    ∀ rl now, rlAfterTrace rl now (downloadVideo ⟨none, false, ""⟩ ⟨[], []⟩ none none 0 3 2000 []).2.2 = rl :=
  c10_empty_url_frame ⟨none, false, ""⟩ ⟨[], []⟩ none none 0 3 2000 [] (Or.inl rfl)

/-- C7: every download attempt issues the unauthenticated request first — in
any trace of `downloadVideo`, an authenticated request only ever appears
immediately after an unauthenticated request to the same URL (so the first
request of a trace is never authenticated and each attempt carries at most
one authenticated retry); when the unauthenticated request succeeds the
attempt performs no authenticated request at all; and when it fails exactly
one authenticated request to the same URL follows it. -/
theorem c7_unauth_first :
    (∀ (cfg : Cfg) (fs : FS) (url fn : Option String) (r m d : Nat)
      (ats : List AttemptSpec),
      authAfterUnauth (downloadVideo cfg fs url fn r m d ats).2.2 = true) ∧
    (∀ (cfg : Cfg) (fs : FS) (u : String) (fn : Option String) (r m d : Nat)
      (a : AttemptSpec) (rest : List AttemptSpec), u ≠ "" →
      dirFor cfg ∈ fs.dirs → filePathOf cfg u fn ∉ fs.files →
      a.unauth = .ok () →
      (downloadVideo cfg fs (some u) fn r m d (a :: rest)).2.2 =
        [Ev.rateLimitCheck, Ev.request u false]) ∧
    (∀ (cfg : Cfg) (fs : FS) (u : String) (fn : Option String) (r m d : Nat)
      (a : AttemptSpec) (rest : List AttemptSpec) (e1 : HttpError), u ≠ "" →
      dirFor cfg ∈ fs.dirs → filePathOf cfg u fn ∉ fs.files →
      a.unauth = .error e1 →
      (downloadVideo cfg fs (some u) fn r m d (a :: rest)).2.2.take 3 =
        [Ev.rateLimitCheck, Ev.request u false, Ev.request u true]) := by
  refine ⟨fun cfg fs url fn r m d ats => (dv_trace_props ats cfg fs url fn r m d).1,
    fun cfg fs u fn r m d a rest hu hdir hnf ha => by
      rw [dv_unauth_ok cfg fs u fn r m d a rest hu hdir hnf ha],
    fun cfg fs u fn r m d a rest e1 hu hdir hnf ha => ?_⟩
  cases hat : a.auth with
  | ok v =>
    rw [dv_auth_ok cfg fs u fn r m d a rest e1 hu hdir hnf ha hat]
    simp
  | error e =>
    by_cases h429 : e.status = some 429
    · rw [dv_429 cfg fs u fn r m d a rest e1 e hu hdir hnf ha hat h429]
      simp
    · by_cases hlt : r < m
      · rw [dv_retry_step cfg fs u fn r m d a rest e1 e hu hdir hnf ha hat h429 hlt]
        simp
      · by_cases hr : retryableErr e u
        · rw [dv_retryable_exhausted cfg fs u fn r m d a rest e1 e hu hdir hnf ha hat h429 hr hlt]
          simp
        · rw [dv_other_exhausted cfg fs u fn r m d a rest e1 e hu hdir hnf ha hat h429 (by simp [hr]) hlt]
          simp

theorem c7_unauth_first_witness :
    authAfterUnauth (downloadVideo ⟨none, false, ""⟩ ⟨["exports/videos"], []⟩
      (some "https://s3.amazonaws.com/a.mp4") (some "f.mp4") 0 3 2000
      [⟨.error ⟨some 403, none, false, false, false, "e"⟩, .ok ()⟩]).2.2 = true ∧
    (downloadVideo ⟨none, false, ""⟩ ⟨["exports/videos"], []⟩
      (some "https://s3.amazonaws.com/a.mp4") (some "f.mp4") 0 3 2000
      [⟨.ok (), .ok ()⟩]).2.2 =
      [Ev.rateLimitCheck, Ev.request "https://s3.amazonaws.com/a.mp4" false] ∧
    (downloadVideo ⟨none, false, ""⟩ ⟨["exports/videos"], []⟩
      (some "https://s3.amazonaws.com/a.mp4") (some "f.mp4") 0 3 2000
      [⟨.error ⟨some 403, none, false, false, false, "e"⟩, .ok ()⟩]).2.2.take 3 =
      [Ev.rateLimitCheck, Ev.request "https://s3.amazonaws.com/a.mp4" false,
       Ev.request "https://s3.amazonaws.com/a.mp4" true] :=
  ⟨c7_unauth_first.1 ⟨none, false, ""⟩ ⟨["exports/videos"], []⟩
      (some "https://s3.amazonaws.com/a.mp4") (some "f.mp4") 0 3 2000
      [⟨.error ⟨some 403, none, false, false, false, "e"⟩, .ok ()⟩],
   c7_unauth_first.2.1 ⟨none, false, ""⟩ ⟨["exports/videos"], []⟩
      "https://s3.amazonaws.com/a.mp4" (some "f.mp4") 0 3 2000
      ⟨.ok (), .ok ()⟩ [] (by decide) (by decide) (by decide) rfl,
   c7_unauth_first.2.2 ⟨none, false, ""⟩ ⟨["exports/videos"], []⟩
      "https://s3.amazonaws.com/a.mp4" (some "f.mp4") 0 3 2000
      ⟨.error ⟨some 403, none, false, false, false, "e"⟩, .ok ()⟩ []
      ⟨some 403, none, false, false, false, "e"⟩
      (by decide) (by decide) (by decide) rfl⟩

end GongExport

namespace GongExport

theorem truthyO_getD (o : Option String) (h : truthyO o = true) :
    o.getD "" ≠ "" := by
  cases o with
  | none => simp [truthyO] at h
  | some s =>
    by_cases hs : s = "" <;> simp [truthyO, hs] at h ⊢

theorem freshUrlFor_ne_empty (env : Env) (c : Call) (vu : String)
    (h : vu ≠ "") : freshUrlFor env c vu ≠ "" := by
  unfold freshUrlFor
  by_cases hc : (truthyO (metaIdOf c) && env.hasRefreshCallback) = true
  · rw [if_pos hc]
    cases href : env.refresh (strOfOpt (metaIdOf c)) with
    | ok ru =>
      by_cases ht : truthyO ru = true
      · simpa [ht] using truthyO_getD ru ht
      · simp [Bool.of_not_eq_true ht, h]
    | error msg => exact h
  · rw [if_neg hc]; exact h

theorem c2_processCall_skip (cfg : Cfg) (env : Env) (fs : FS) (idx : Nat)
    (c : Call) (hv : truthyO (videoUrlOf c) = true)
    (hdir : dirFor cfg ∈ fs.dirs) (hf : destPathFor cfg env c ∈ fs.files) :
    processCall cfg env fs idx c =
      (.succ ⟨metaIdOf c, callTitleOf c, destPathFor cfg env c⟩, fs, []) := by
  have hne : freshUrlFor env c ((videoUrlOf c).getD "") ≠ "" :=
    freshUrlFor_ne_empty env c _ (truthyO_getD _ hv)
  have hpath : destPathFor cfg env c =
      filePathOf cfg (freshUrlFor env c ((videoUrlOf c).getD ""))
        (some (filenameFor env c ((videoUrlOf c).getD ""))) := rfl
  rw [hpath] at hf
  simp only [processCall, hv, if_true]
  rw [dv_exists cfg fs _ _ 0 3 2000 (env.attemptsOf idx) hne hdir hf]
  simp [← hpath]

theorem c2_processCalls_skip (cfg : Cfg) (env : Env) :
    ∀ (calls : List Call) (fs : FS) (idx : Nat),
    dirFor cfg ∈ fs.dirs →
    (∀ c ∈ calls, truthyO (videoUrlOf c) = true ∧ destPathFor cfg env c ∈ fs.files) →
    processCalls cfg env fs idx calls =
      (calls.map (fun c =>
        POut.succ ⟨metaIdOf c, callTitleOf c, destPathFor cfg env c⟩), fs, []) := by
  intro calls
  induction calls with
  | nil => intro fs idx hdir hall; simp [processCalls]
  | cons c cs ih =>
    intro fs idx hdir hall
    have h1 := hall c (by simp)
    have hstep := c2_processCall_skip cfg env fs idx c h1.1 hdir h1.2
    have hrest := ih fs (idx + 1) hdir (fun x hx => hall x (by simp [hx]))
    simp [processCalls, hstep, hrest]

theorem filterMap_succOf_map (f : Call → SuccessEntry) (l : List Call) :
    (l.map (fun c => POut.succ (f c))).filterMap succOf = l.map f := by
  induction l <;> simp_all [succOf]

theorem filterMap_failOf_map_succ (f : Call → SuccessEntry) (l : List Call) :
    (l.map (fun c => POut.succ (f c))).filterMap failOf = [] := by
  induction l <;> simp_all [failOf]

/-- C2: a download whose destination file already exists returns that path at
once with an empty effect trace — no network request, no rate-limiter wait —
and a re-run of the whole download phase over a storage root already holding
every call's file yields a success entry per call, no failures, no
filesystem change and no recorded effects at all. -/
theorem c2_idempotent_rerun (cfg : Cfg) (env : Env) (fs : FS)
    (calls : List Call) (hdir : dirFor cfg ∈ fs.dirs)
    (hall : ∀ c ∈ calls, truthyO (videoUrlOf c) = true ∧
      destPathFor cfg env c ∈ fs.files) :
    (∀ (cfg2 : Cfg) (fs2 : FS) (u : String) (fn : Option String) (r m d : Nat)
      (ats : List AttemptSpec), u ≠ "" → dirFor cfg2 ∈ fs2.dirs →
      filePathOf cfg2 u fn ∈ fs2.files →
      downloadVideo cfg2 fs2 (some u) fn r m d ats =
        (.success (filePathOf cfg2 u fn), fs2, [])) ∧
    (downloadVideosFromExtensiveCalls cfg env fs calls).1 =
      calls.map (fun c =>
        (⟨metaIdOf c, callTitleOf c, destPathFor cfg env c⟩ : SuccessEntry)) ∧
    (downloadVideosFromExtensiveCalls cfg env fs calls).2.1 = [] ∧
    (downloadVideosFromExtensiveCalls cfg env fs calls).2.2.1 = fs ∧
    (downloadVideosFromExtensiveCalls cfg env fs calls).2.2.2 = [] := by
  have h := c2_processCalls_skip cfg env calls fs 0 hdir hall
  refine ⟨fun cfg2 fs2 u fn r m d ats hu hd hf =>
    dv_exists cfg2 fs2 u fn r m d ats hu hd hf, ?_, ?_, ?_, ?_⟩ <;>
    simp [downloadVideosFromExtensiveCalls, h, filterMap_succOf_map,
      filterMap_failOf_map_succ, -List.filterMap_map]

theorem c2_idempotent_rerun_witness :
    (∀ (cfg2 : Cfg) (fs2 : FS) (u : String) (fn : Option String) (r m d : Nat)
      (ats : List AttemptSpec), u ≠ "" → dirFor cfg2 ∈ fs2.dirs →
      filePathOf cfg2 u fn ∈ fs2.files →
      downloadVideo cfg2 fs2 (some u) fn r m d ats =
        (.success (filePathOf cfg2 u fn), fs2, [])) ∧
    (downloadVideosFromExtensiveCalls cfg0 (envOf fun _ => [])
      ⟨["exports/videos"], ["exports/videos/2024-03-01_c1_weekly_sync.mp4"]⟩
      [call1]).1 =
      [call1].map (fun c =>
        (⟨metaIdOf c, callTitleOf c,
          destPathFor cfg0 (envOf fun _ => []) c⟩ : SuccessEntry)) ∧
    (downloadVideosFromExtensiveCalls cfg0 (envOf fun _ => [])
      ⟨["exports/videos"], ["exports/videos/2024-03-01_c1_weekly_sync.mp4"]⟩
      [call1]).2.1 = [] ∧
    (downloadVideosFromExtensiveCalls cfg0 (envOf fun _ => [])
      ⟨["exports/videos"], ["exports/videos/2024-03-01_c1_weekly_sync.mp4"]⟩
      [call1]).2.2.1 =
      (⟨["exports/videos"], ["exports/videos/2024-03-01_c1_weekly_sync.mp4"]⟩ : FS) ∧
    (downloadVideosFromExtensiveCalls cfg0 (envOf fun _ => [])
      ⟨["exports/videos"], ["exports/videos/2024-03-01_c1_weekly_sync.mp4"]⟩
      [call1]).2.2.2 = [] :=
  c2_idempotent_rerun cfg0 (envOf fun _ => [])
    ⟨["exports/videos"], ["exports/videos/2024-03-01_c1_weekly_sync.mp4"]⟩
    [call1] (by decide) (by decide)

theorem processCalls_length (cfg : Cfg) (env : Env) :
    ∀ (calls : List Call) (fs : FS) (idx : Nat),
    (processCalls cfg env fs idx calls).1.length = calls.length := by
  intro calls
  induction calls with
  | nil => intro fs idx; simp [processCalls]
  | cons c cs ih => intro fs idx; simp [processCalls, ih]

theorem partition_of_no_hang :
    ∀ (outs : List POut), POut.hang ∉ outs →
    (outs.filterMap succOf).length + (outs.filterMap failOf).length =
      outs.length := by
  intro outs
  induction outs with
  | nil => simp
  | cons o os ih =>
    intro h
    have ho : o ≠ POut.hang := fun he => h (by simp [he])
    have hos : POut.hang ∉ os := fun he => h (by simp [he])
    cases o with
    | succ e => simpa [succOf, failOf, Nat.add_right_comm] using ih hos
    | fail e =>
      have := ih hos
      simp [succOf, failOf]
      omega
    | hang => exact absurd rfl ho

/-- C1: the pipeline produces exactly one outcome per input record; whenever
no record's download exhausts the modelled network oracle, the success and
failure accumulators partition the outcomes — their lengths sum to the input
length — and the function's return value is exactly the success list. -/
theorem c1_partition (cfg : Cfg) (env : Env) (fs : FS) (calls : List Call)
    (hno : POut.hang ∉ (processCalls cfg env fs 0 calls).1) :
    (processCalls cfg env fs 0 calls).1.length = calls.length ∧
    (downloadVideosFromExtensiveCalls cfg env fs calls).1 =
      (processCalls cfg env fs 0 calls).1.filterMap succOf ∧
    (downloadVideosFromExtensiveCalls cfg env fs calls).2.1 =
      (processCalls cfg env fs 0 calls).1.filterMap failOf ∧
    (downloadVideosFromExtensiveCalls cfg env fs calls).1.length +
      (downloadVideosFromExtensiveCalls cfg env fs calls).2.1.length =
      calls.length := by
  refine ⟨processCalls_length cfg env calls fs 0, rfl, rfl, ?_⟩
  have h := partition_of_no_hang (processCalls cfg env fs 0 calls).1 hno
  calc (downloadVideosFromExtensiveCalls cfg env fs calls).1.length +
      (downloadVideosFromExtensiveCalls cfg env fs calls).2.1.length
      = ((processCalls cfg env fs 0 calls).1.filterMap succOf).length +
        ((processCalls cfg env fs 0 calls).1.filterMap failOf).length := rfl
    _ = (processCalls cfg env fs 0 calls).1.length := h
    _ = calls.length := processCalls_length cfg env calls fs 0

theorem c1_partition_witness :
    (processCalls cfg0 (envOf fun _ => [okSpec]) fs0 0 [callNoUrl, call1]).1.length = 2 ∧
    (downloadVideosFromExtensiveCalls cfg0 (envOf fun _ => [okSpec]) fs0
      [callNoUrl, call1]).1 =
      (processCalls cfg0 (envOf fun _ => [okSpec]) fs0 0
        [callNoUrl, call1]).1.filterMap succOf ∧
    (downloadVideosFromExtensiveCalls cfg0 (envOf fun _ => [okSpec]) fs0
      [callNoUrl, call1]).2.1 =
      (processCalls cfg0 (envOf fun _ => [okSpec]) fs0 0
        [callNoUrl, call1]).1.filterMap failOf ∧
    (downloadVideosFromExtensiveCalls cfg0 (envOf fun _ => [okSpec]) fs0
      [callNoUrl, call1]).1.length +
      (downloadVideosFromExtensiveCalls cfg0 (envOf fun _ => [okSpec]) fs0
        [callNoUrl, call1]).2.1.length = 2 :=
  c1_partition cfg0 (envOf fun _ => [okSpec]) fs0 [callNoUrl, call1] (by decide)

end GongExport

namespace GongExport

/-- C3 counterexample: a call whose four S3-403 attempts all fail is recorded
with reason "Download returned null", not "access denied / retries
exhausted" — the claim's reason string never appears in a failure entry. -/
theorem c3_counterexample :
    ((downloadVideosFromExtensiveCalls cfg0
        (envOf fun _ => List.replicate 4 failSpec) fs0 [call1]).2.1.map
      FailEntry.why) = [FailReason.reason "Download returned null"] ∧
    FailReason.reason "Download returned null" ≠
      FailReason.reason "access denied / retries exhausted" := by
  constructor
  · decide
  · decide

theorem dv_exhaust_aux (cfg : Cfg) (u : String) (fn : Option String) (d : Nat)
    (a : AttemptSpec) (e1 e : HttpError) (hu : u ≠ "")
    (ha : a.unauth = .error e1) (hb : a.auth = .error e)
    (h429 : ¬ e.status = some 429) (hr : retryableErr e u = true) :
    ∀ (n r m : Nat) (fs : FS), r + n = m → dirFor cfg ∈ fs.dirs →
    filePathOf cfg u fn ∉ fs.files →
    (downloadVideo cfg fs (some u) fn r m d (List.replicate (n + 1) a)).1 =
      DlResult.nullResult ∧
    (downloadVideo cfg fs (some u) fn r m d (List.replicate (n + 1) a)).2.1 = fs ∧
    countRLC (downloadVideo cfg fs (some u) fn r m d
      (List.replicate (n + 1) a)).2.2 = n + 1 ∧
    sleepsOf (downloadVideo cfg fs (some u) fn r m d
      (List.replicate (n + 1) a)).2.2 =
      (List.range' r n).map (fun k => d * 2 ^ k) := by
  intro n
  induction n with
  | zero =>
    intro r m fs hrm hdir hnf
    have hge : ¬ r < m := by omega
    rw [show List.replicate (0 + 1) a = [a] from rfl]
    rw [dv_retryable_exhausted cfg fs u fn r m d a [] e1 e hu hdir hnf ha hb
      h429 hr hge]
    simp [countRLC, sleepsOf, isRLC]
  | succ n ih =>
    intro r m fs hrm hdir hnf
    have hlt : r < m := by omega
    rw [List.replicate_succ]
    rw [dv_retry_step cfg fs u fn r m d a (List.replicate (n + 1) a) e1 e hu
      hdir hnf ha hb h429 hlt]
    have hih := ih (r + 1) m fs (by omega) hdir hnf
    refine ⟨hih.1, hih.2.1, ?_, ?_⟩
    · simp [countRLC, isRLC, List.filter] at hih ⊢
      omega
    · have hr' : List.range' r (n + 1) = r :: List.range' (r + 1) n :=
        List.range'_succ r n 1
      simp [sleepsOf] at hih ⊢
      rw [hih.2.2.2, hr']
      simp

end GongExport

namespace GongExport

/-- C3 (amended): for a call whose download fails on every attempt with a
retryable error, exactly `maxRetries + 1` attempts are made (one rate-limiter
invocation each), with the delay before retry attempt k equal to
`retryDelay * 2 ^ (k - 1)`; the exhausted `downloadVideo` returns null — the
pipeline then records the call as Failed with reason "Download returned
null" (the phrase "access denied / retries exhausted" appears only in a log
line, not in the recorded entry) and continues with the remaining calls. -/
theorem c3_backoff_amended :
    (∀ (cfg : Cfg) (fs : FS) (u : String) (fn : Option String) (m d : Nat)
      (a : AttemptSpec) (e1 e : HttpError), u ≠ "" → a.unauth = .error e1 →
      a.auth = .error e → ¬ e.status = some 429 → retryableErr e u = true →
      dirFor cfg ∈ fs.dirs → filePathOf cfg u fn ∉ fs.files →
      (downloadVideo cfg fs (some u) fn 0 m d (List.replicate (m + 1) a)).1 =
        DlResult.nullResult ∧
      countRLC (downloadVideo cfg fs (some u) fn 0 m d
        (List.replicate (m + 1) a)).2.2 = m + 1 ∧
      sleepsOf (downloadVideo cfg fs (some u) fn 0 m d
        (List.replicate (m + 1) a)).2.2 =
        (List.range m).map (fun k => d * 2 ^ k)) ∧
    (∀ (cfg : Cfg) (env : Env) (fs : FS) (idx : Nat) (c : Call),
      truthyO (videoUrlOf c) = true →
      (downloadVideo cfg fs (some (freshUrlFor env c ((videoUrlOf c).getD "")))
        (some (filenameFor env c ((videoUrlOf c).getD ""))) 0 3 2000
        (env.attemptsOf idx)).1 = DlResult.nullResult →
      (processCall cfg env fs idx c).1 =
        POut.fail ⟨metaIdOf c, callTitleOf c,
          FailReason.reason "Download returned null"⟩) ∧
    (∀ (cfg : Cfg) (env : Env) (fs : FS) (idx : Nat) (c : Call)
      (cs : List Call),
      (processCalls cfg env fs idx (c :: cs)).1 =
        (processCall cfg env fs idx c).1 ::
          (processCalls cfg env (processCall cfg env fs idx c).2.1
            (idx + 1) cs).1) := by
  refine ⟨fun cfg fs u fn m d a e1 e hu ha hb h429 hr hdir hnf => ?_,
    fun cfg env fs idx c hv hres => ?_, fun cfg env fs idx c cs => rfl⟩
  · have h := dv_exhaust_aux cfg u fn d a e1 e hu ha hb h429 hr m 0 m fs
      (by omega) hdir hnf
    refine ⟨h.1, h.2.2.1, ?_⟩
    rw [h.2.2.2, List.range_eq_range']
  · simp only [processCall, hv, if_true, hres]

theorem c3_backoff_amended_witness :
    ((downloadVideo cfg0 fs0 (some "https://s3.amazonaws.com/a.mp4")
        (some "f.mp4") 0 3 2000 (List.replicate 4 failSpec)).1 =
      DlResult.nullResult ∧
    countRLC (downloadVideo cfg0 fs0 (some "https://s3.amazonaws.com/a.mp4")
      (some "f.mp4") 0 3 2000 (List.replicate 4 failSpec)).2.2 = 4 ∧
    sleepsOf (downloadVideo cfg0 fs0 (some "https://s3.amazonaws.com/a.mp4")
      (some "f.mp4") 0 3 2000 (List.replicate 4 failSpec)).2.2 =
      (List.range 3).map (fun k => 2000 * 2 ^ k)) ∧
    (processCall cfg0 (envOf fun _ => List.replicate 4 failSpec) fs0 0
      call1).1 =
      POut.fail ⟨metaIdOf call1, callTitleOf call1,
        FailReason.reason "Download returned null"⟩ ∧
    (processCalls cfg0 (envOf fun _ => List.replicate 4 failSpec) fs0 0
      (call1 :: [callNoUrl])).1 =
      (processCall cfg0 (envOf fun _ => List.replicate 4 failSpec) fs0 0
        call1).1 ::
        (processCalls cfg0 (envOf fun _ => List.replicate 4 failSpec)
          (processCall cfg0 (envOf fun _ => List.replicate 4 failSpec) fs0 0
            call1).2.1 1 [callNoUrl]).1 :=
  ⟨c3_backoff_amended.1 cfg0 fs0 "https://s3.amazonaws.com/a.mp4"
      (some "f.mp4") 3 2000 failSpec e403 e403 (by decide) rfl rfl (by decide)
      (by decide) (by decide) (by decide),
   c3_backoff_amended.2.1 cfg0 (envOf fun _ => List.replicate 4 failSpec) fs0
      0 call1 (by decide) (by decide),
   c3_backoff_amended.2.2 cfg0 (envOf fun _ => List.replicate 4 failSpec) fs0
      0 call1 [callNoUrl]⟩

/-- C4: when a download attempt fails with HTTP 429, `downloadVideo` sleeps
for the `Retry-After` duration (defaulting to 60 seconds when the header is
absent) and restarts the same download with `retryCount = 0` and the default
parameters — the 429 emits no outcome of its own (the result is entirely
that of the restarted download, so it is never recorded as a failure) and
consumes no retry budget; consequently any number of consecutive 429
responses is absorbed, each contributing exactly one sleep, with the final
outcome still determined by whatever follows. -/
theorem c4_rate_limit_429 :
    (∀ (cfg : Cfg) (fs : FS) (u : String) (fn : Option String) (r m d : Nat)
      (a : AttemptSpec) (rest : List AttemptSpec) (e1 e : HttpError),
      u ≠ "" → dirFor cfg ∈ fs.dirs → filePathOf cfg u fn ∉ fs.files →
      a.unauth = .error e1 → a.auth = .error e → e.status = some 429 →
      downloadVideo cfg fs (some u) fn r m d (a :: rest) =
        ((downloadVideo cfg fs (some u) fn 0 3 2000 rest).1,
         (downloadVideo cfg fs (some u) fn 0 3 2000 rest).2.1,
         Ev.rateLimitCheck :: Ev.request u false :: Ev.request u true ::
           Ev.sleep ((e.retryAfter.getD 60) * 1000) ::
           (downloadVideo cfg fs (some u) fn 0 3 2000 rest).2.2)) ∧
    (∀ (cfg : Cfg) (fs : FS) (u : String) (fn : Option String)
      (a : AttemptSpec) (rest : List AttemptSpec) (e1 e : HttpError),
      u ≠ "" → dirFor cfg ∈ fs.dirs → filePathOf cfg u fn ∉ fs.files →
      a.unauth = .error e1 → a.auth = .error e → e.status = some 429 →
      ∀ (n r m d : Nat),
      (downloadVideo cfg fs (some u) fn r m d
        (List.replicate (n + 1) a ++ rest)).1 =
        (downloadVideo cfg fs (some u) fn 0 3 2000 rest).1 ∧
      (downloadVideo cfg fs (some u) fn r m d
        (List.replicate (n + 1) a ++ rest)).2.1 =
        (downloadVideo cfg fs (some u) fn 0 3 2000 rest).2.1 ∧
      sleepsOf (downloadVideo cfg fs (some u) fn r m d
        (List.replicate (n + 1) a ++ rest)).2.2 =
        List.replicate (n + 1) ((e.retryAfter.getD 60) * 1000) ++
          sleepsOf (downloadVideo cfg fs (some u) fn 0 3 2000 rest).2.2) := by
  refine ⟨fun cfg fs u fn r m d a rest e1 e hu hdir hnf ha hb h429 =>
    dv_429 cfg fs u fn r m d a rest e1 e hu hdir hnf ha hb h429, ?_⟩
  intro cfg fs u fn a rest e1 e hu hdir hnf ha hb h429 n
  induction n with
  | zero =>
    intro r m d
    rw [show List.replicate (0 + 1) a ++ rest = a :: rest from rfl]
    rw [dv_429 cfg fs u fn r m d a rest e1 e hu hdir hnf ha hb h429]
    simp [sleepsOf]
  | succ n ih =>
    intro r m d
    rw [List.replicate_succ]
    rw [show (a :: List.replicate (n + 1) a) ++ rest =
      a :: (List.replicate (n + 1) a ++ rest) from rfl]
    rw [dv_429 cfg fs u fn r m d a (List.replicate (n + 1) a ++ rest) e1 e hu
      hdir hnf ha hb h429]
    have hih := ih 0 3 2000
    refine ⟨hih.1, hih.2.1, ?_⟩
    simp [sleepsOf] at hih ⊢
    rw [hih.2.2]
    simp [List.replicate_succ]

theorem c4_rate_limit_429_witness :
    downloadVideo cfg0 fs0 (some "https://s3.amazonaws.com/a.mp4")
      (some "f.mp4") 2 3 2000
      (⟨.error e403, .error ⟨some 429, none, false, false, false, "429"⟩⟩ ::
        [okSpec]) =
      ((downloadVideo cfg0 fs0 (some "https://s3.amazonaws.com/a.mp4")
          (some "f.mp4") 0 3 2000 [okSpec]).1,
       (downloadVideo cfg0 fs0 (some "https://s3.amazonaws.com/a.mp4")
          (some "f.mp4") 0 3 2000 [okSpec]).2.1,
       Ev.rateLimitCheck ::
         Ev.request "https://s3.amazonaws.com/a.mp4" false ::
         Ev.request "https://s3.amazonaws.com/a.mp4" true ::
         Ev.sleep (((⟨some 429, none, false, false, false, "429"⟩ :
             HttpError).retryAfter.getD 60) * 1000) ::
         (downloadVideo cfg0 fs0 (some "https://s3.amazonaws.com/a.mp4")
            (some "f.mp4") 0 3 2000 [okSpec]).2.2) ∧
    sleepsOf (downloadVideo cfg0 fs0 (some "https://s3.amazonaws.com/a.mp4")
      (some "f.mp4") 1 3 2000
      (List.replicate 3
        (⟨.error e403, .error ⟨some 429, some 7, false, false, false, "429"⟩⟩ :
          AttemptSpec) ++ [okSpec])).2.2 =
      List.replicate 3
        (((⟨some 429, some 7, false, false, false, "429"⟩ :
            HttpError).retryAfter.getD 60) * 1000) ++
        sleepsOf (downloadVideo cfg0 fs0
          (some "https://s3.amazonaws.com/a.mp4") (some "f.mp4") 0 3 2000
          [okSpec]).2.2 :=
  ⟨c4_rate_limit_429.1 cfg0 fs0 "https://s3.amazonaws.com/a.mp4"
      (some "f.mp4") 2 3 2000
      ⟨.error e403, .error ⟨some 429, none, false, false, false, "429"⟩⟩
      [okSpec] e403 ⟨some 429, none, false, false, false, "429"⟩ (by decide)
      (by decide) (by decide) rfl rfl rfl,
   (c4_rate_limit_429.2 cfg0 fs0 "https://s3.amazonaws.com/a.mp4"
      (some "f.mp4")
      ⟨.error e403, .error ⟨some 429, some 7, false, false, false, "429"⟩⟩
      [okSpec] e403 ⟨some 429, some 7, false, false, false, "429"⟩ (by decide)
      (by decide) (by decide) rfl rfl rfl 2 1 3 2000).2.2⟩

/-- C5 counterexample: when every attempt yields no URL in the body (the
first PUT throws a 500, the others succeed without a `url`), the resolver
rethrows the first attempt's error instead of returning null — and the
raised error is not an authorization condition. -/
theorem c5_counterexample :
    yieldsNoUrl (Except.error e500 : Except HttpError SBody) = true ∧
    yieldsNoUrl (Except.ok (⟨none⟩ : SBody)) = true ∧
    (getSignedMediaUrl "c1" ⟨.error e500, .ok ⟨none⟩, .ok ⟨none⟩⟩).1 =
      Except.error e500 ∧
    (getSignedMediaUrl "c1" ⟨.error e500, .ok ⟨none⟩, .ok ⟨none⟩⟩).1 ≠
      Except.ok none ∧
    e500.status ≠ some 401 ∧ e500.status ≠ some 403 := by
  refine ⟨rfl, rfl, rfl, ?_, by decide, by decide⟩
  decide

/-- C5 (amended): the resolver returns the first truthy `url` found in a
successful response body, trying PUT(octet-stream) and, only when that first
attempt throws, PUT(text/plain) and then DELETE.  It returns null only when
the first attempt itself succeeds without a `url` (no further combinations
are tried in that case); when the first attempt throws and no later
combination yields a `url`, the first attempt's error is rethrown whatever
its cause — an error is not reserved for genuine authorization failures. -/
theorem c5_signed_url_amended (cid : String) (o : SOracle) :
    (∀ b u, o.put1 = .ok b → b.url = some u → u ≠ "" →
      (getSignedMediaUrl cid o).1 = .ok (some u) ∧
      countReq (getSignedMediaUrl cid o).2 = 1) ∧
    (∀ b, o.put1 = .ok b → truthyO b.url = false →
      (getSignedMediaUrl cid o).1 = .ok none ∧
      countReq (getSignedMediaUrl cid o).2 = 1) ∧
    (∀ pe b u, o.put1 = .error pe → o.put2 = .ok b → b.url = some u →
      u ≠ "" → (getSignedMediaUrl cid o).1 = .ok (some u)) ∧
    (∀ pe b u, o.put1 = .error pe → yieldsNoUrl o.put2 = true →
      o.del = .ok b → b.url = some u → u ≠ "" →
      (getSignedMediaUrl cid o).1 = .ok (some u)) ∧
    (∀ pe, o.put1 = .error pe → yieldsNoUrl o.put2 = true →
      yieldsNoUrl o.del = true →
      (getSignedMediaUrl cid o).1 = .error pe ∧
      countReq (getSignedMediaUrl cid o).2 = 3) := by
  refine ⟨?_, ?_, ?_, ?_, ?_⟩
  · intro b u h1 hbu hu
    have ht : truthyO (some u) = true := by simp [truthyO, hu]
    constructor
    · simp [getSignedMediaUrl, h1, ht, hbu]
    · simp [getSignedMediaUrl, h1, hbu, ht, countReq, isReq]
  · intro b h1 ht
    constructor
    · simp [getSignedMediaUrl, h1, ht]
    · simp [getSignedMediaUrl, h1, ht, countReq, isReq]
  · intro pe b u h1 h2 hbu hu
    have ht : truthyO (some u) = true := by simp [truthyO, hu]
    simp [getSignedMediaUrl, h1, h2, ht, hbu]
  · intro pe b u h1 h2 h3 hbu hu
    have ht : truthyO (some u) = true := by simp [truthyO, hu]
    cases hp2 : o.put2 with
    | ok b2 =>
      have hb2 : truthyO b2.url = false := by
        simpa [yieldsNoUrl, hp2] using h2
      simp [getSignedMediaUrl, h1, hp2, hb2, tryDeleteStep, h3, ht, hbu]
    | error e2 =>
      simp [getSignedMediaUrl, h1, hp2, tryDeleteStep, h3, ht, hbu]
  · intro pe h1 h2 h3
    have hdel : tryDeleteStep pe o.del = .error pe := by
      cases hd : o.del with
      | ok b3 =>
        have hb3 : truthyO b3.url = false := by
          simpa [yieldsNoUrl, hd] using h3
        simp [tryDeleteStep, hb3]
      | error e3 => simp [tryDeleteStep]
    cases hp2 : o.put2 with
    | ok b2 =>
      have hb2 : truthyO b2.url = false := by
        simpa [yieldsNoUrl, hp2] using h2
      constructor
      · simp [getSignedMediaUrl, h1, hp2, hb2, hdel]
      · simp [getSignedMediaUrl, h1, hp2, hb2, countReq, isReq]
    | error e2 =>
      constructor
      · simp [getSignedMediaUrl, h1, hp2, hdel]
      · simp [getSignedMediaUrl, h1, hp2, countReq, isReq]

theorem c5_signed_url_amended_witness :
    ((getSignedMediaUrl "c1" ⟨.ok ⟨some "https://u.mp4"⟩, .ok ⟨none⟩,
        .ok ⟨none⟩⟩).1 = .ok (some "https://u.mp4") ∧
      countReq (getSignedMediaUrl "c1" ⟨.ok ⟨some "https://u.mp4"⟩,
        .ok ⟨none⟩, .ok ⟨none⟩⟩).2 = 1) ∧
    ((getSignedMediaUrl "c2" ⟨.ok ⟨none⟩, .ok ⟨some "x"⟩, .ok ⟨some "x"⟩⟩).1 =
        .ok none ∧
      countReq (getSignedMediaUrl "c2" ⟨.ok ⟨none⟩, .ok ⟨some "x"⟩,
        .ok ⟨some "x"⟩⟩).2 = 1) ∧
    (getSignedMediaUrl "c3" ⟨.error e500, .ok ⟨some "https://v.mp4"⟩,
      .ok ⟨none⟩⟩).1 = .ok (some "https://v.mp4") ∧
    (getSignedMediaUrl "c4" ⟨.error e500, .error e403,
      .ok ⟨some "https://w.mp4"⟩⟩).1 = .ok (some "https://w.mp4") ∧
    ((getSignedMediaUrl "c5" ⟨.error e500, .error e403, .ok ⟨none⟩⟩).1 =
        .error e500 ∧
      countReq (getSignedMediaUrl "c5" ⟨.error e500, .error e403,
        .ok ⟨none⟩⟩).2 = 3) :=
  ⟨(c5_signed_url_amended "c1" ⟨.ok ⟨some "https://u.mp4"⟩, .ok ⟨none⟩,
      .ok ⟨none⟩⟩).1 ⟨some "https://u.mp4"⟩ "https://u.mp4" rfl rfl
      (by decide),
   (c5_signed_url_amended "c2" ⟨.ok ⟨none⟩, .ok ⟨some "x"⟩,
      .ok ⟨some "x"⟩⟩).2.1 ⟨none⟩ rfl rfl,
   (c5_signed_url_amended "c3" ⟨.error e500, .ok ⟨some "https://v.mp4"⟩,
      .ok ⟨none⟩⟩).2.2.1 e500 ⟨some "https://v.mp4"⟩ "https://v.mp4" rfl rfl
      rfl (by decide),
   (c5_signed_url_amended "c4" ⟨.error e500, .error e403,
      .ok ⟨some "https://w.mp4"⟩⟩).2.2.2.1 e500 ⟨some "https://w.mp4"⟩
      "https://w.mp4" rfl rfl rfl rfl (by decide),
   (c5_signed_url_amended "c5" ⟨.error e500, .error e403,
      .ok ⟨none⟩⟩).2.2.2.2 e500 rfl rfl rfl⟩



theorem processCall_trace (cfg : Cfg) (env : Env) (fs : FS) (idx : Nat)
    (c : Call) (hv : truthyO (videoUrlOf c) = true) :
    (processCall cfg env fs idx c).2.2 =
      (downloadVideo cfg fs
        (some (freshUrlFor env c ((videoUrlOf c).getD "")))
        (some (filenameFor env c ((videoUrlOf c).getD ""))) 0 3 2000
        (env.attemptsOf idx)).2.2 := by
  simp only [processCall, hv, if_true]
  split <;> rfl

theorem dv_requests_ne (cfg : Cfg) (fs : FS) (u : String) (fn : Option String)
    (r m d : Nat) (a : AttemptSpec) (rest : List AttemptSpec) (hu : u ≠ "")
    (hdir : dirFor cfg ∈ fs.dirs) (hnf : filePathOf cfg u fn ∉ fs.files) :
    reqUrls (downloadVideo cfg fs (some u) fn r m d (a :: rest)).2.2 ≠ [] := by
  cases hau : a.unauth with
  | ok v =>
    rw [dv_unauth_ok cfg fs u fn r m d a rest hu hdir hnf hau]
    simp [reqUrls]
  | error e1 =>
    cases hat : a.auth with
    | ok v =>
      rw [dv_auth_ok cfg fs u fn r m d a rest e1 hu hdir hnf hau hat]
      simp [reqUrls]
    | error e =>
      by_cases h429 : e.status = some 429
      · rw [dv_429 cfg fs u fn r m d a rest e1 e hu hdir hnf hau hat h429]
        simp [reqUrls]
      · by_cases hlt : r < m
        · rw [dv_retry_step cfg fs u fn r m d a rest e1 e hu hdir hnf hau hat
            h429 hlt]
          simp [reqUrls]
        · by_cases hr : retryableErr e u
          · rw [dv_retryable_exhausted cfg fs u fn r m d a rest e1 e hu hdir
              hnf hau hat h429 hr hlt]
            simp [reqUrls]
          · rw [dv_other_exhausted cfg fs u fn r m d a rest e1 e hu hdir hnf
              hau hat h429 (by simp [hr]) hlt]
            simp [reqUrls]

/-- C6: for a call record carrying both a truthy embedded media URL and a
truthy id, when a refresh callback is present and returns a truthy URL, the
pipeline downloads from the refreshed URL — every HTTP request of that
call's processing targets it, and at least one request is made; when the
refresh callback instead returns null or throws, every request targets the
embedded URL. -/
theorem c6_url_precedence (cfg : Cfg) (fs : FS) (idx : Nat) (c : Call)
    (v cid : String) (hmedia : videoUrlOf c = some v) (hv : v ≠ "")
    (hid : metaIdOf c = some cid) (hcid : cid ≠ "") :
    (∀ (env : Env) (r : String), env.hasRefreshCallback = true →
      env.refresh cid = .ok (some r) → r ≠ "" →
      dirFor cfg ∈ fs.dirs → destPathFor cfg env c ∉ fs.files →
      (∃ a rest, env.attemptsOf idx = a :: rest) →
      freshUrlFor env c v = r ∧
      reqUrls (processCall cfg env fs idx c).2.2 ≠ [] ∧
      ∀ x ∈ reqUrls (processCall cfg env fs idx c).2.2, x = r) ∧
    (∀ (env : Env), env.hasRefreshCallback = true →
      (env.refresh cid = .ok none ∨ ∃ msg, env.refresh cid = .error msg) →
      dirFor cfg ∈ fs.dirs → destPathFor cfg env c ∉ fs.files →
      (∃ a rest, env.attemptsOf idx = a :: rest) →
      freshUrlFor env c v = v ∧
      reqUrls (processCall cfg env fs idx c).2.2 ≠ [] ∧
      ∀ x ∈ reqUrls (processCall cfg env fs idx c).2.2, x = v) := by
  have hvc : truthyO (videoUrlOf c) = true := by simp [truthyO, hmedia, hv]
  have hget : (videoUrlOf c).getD "" = v := by simp [hmedia]
  have hidT : truthyO (metaIdOf c) = true := by simp [truthyO, hid, hcid]
  have hsid : strOfOpt (metaIdOf c) = cid := by simp [strOfOpt, hid]
  constructor
  · intro env r hcb href hr hdir hnf hats
    have htr : truthyO (some r) = true := by simp [truthyO, hr]
    have hfresh : freshUrlFor env c v = r := by
      simp [freshUrlFor, hidT, hcb, hsid, href, htr]
    have hfresh' : freshUrlFor env c ((videoUrlOf c).getD "") = r := by
      rw [hget, hfresh]
    have hne : freshUrlFor env c ((videoUrlOf c).getD "") ≠ "" := by
      rw [hfresh']; exact hr
    have hpath : destPathFor cfg env c =
        filePathOf cfg (freshUrlFor env c ((videoUrlOf c).getD ""))
          (some (filenameFor env c ((videoUrlOf c).getD ""))) := rfl
    rw [hpath] at hnf
    rw [hfresh'] at hnf hne
    obtain ⟨a, rest, hats'⟩ := hats
    refine ⟨hfresh, ?_, ?_⟩
    · rw [processCall_trace cfg env fs idx c hvc, hfresh', hats']
      exact dv_requests_ne cfg fs r _ 0 3 2000 a rest hne hdir hnf
    · intro x hx
      rw [processCall_trace cfg env fs idx c hvc, hfresh'] at hx
      have := (dv_trace_props (env.attemptsOf idx) cfg fs (some r)
        (some (filenameFor env c ((videoUrlOf c).getD ""))) 0 3 2000).2.2 x hx
      simpa using this.symm
  · intro env hcb href hdir hnf hats
    have hfresh : freshUrlFor env c v = v := by
      rcases href with href | ⟨msg, href⟩ <;>
        simp [freshUrlFor, hidT, hcb, hsid, href, truthyO]
    have hfresh' : freshUrlFor env c ((videoUrlOf c).getD "") = v := by
      rw [hget, hfresh]
    have hne : freshUrlFor env c ((videoUrlOf c).getD "") ≠ "" := by
      rw [hfresh']; exact hv
    have hpath : destPathFor cfg env c =
        filePathOf cfg (freshUrlFor env c ((videoUrlOf c).getD ""))
          (some (filenameFor env c ((videoUrlOf c).getD ""))) := rfl
    rw [hpath] at hnf
    rw [hfresh'] at hnf hne
    obtain ⟨a, rest, hats'⟩ := hats
    refine ⟨hfresh, ?_, ?_⟩
    · rw [processCall_trace cfg env fs idx c hvc, hfresh', hats']
      exact dv_requests_ne cfg fs v _ 0 3 2000 a rest hne hdir hnf
    · intro x hx
      rw [processCall_trace cfg env fs idx c hvc, hfresh'] at hx
      have := (dv_trace_props (env.attemptsOf idx) cfg fs (some v)
        (some (filenameFor env c ((videoUrlOf c).getD ""))) 0 3 2000).2.2 x hx
      simpa using this.symm



theorem c6_url_precedence_witness :
    freshUrlFor ⟨true, fun _ => .ok (some "https://fresh.mp4"),
        fun _ => some "2024-03-01", fun _ => [okSpec]⟩ call1
      "https://s3.amazonaws.com/a.mp4" = "https://fresh.mp4" ∧
    reqUrls (processCall cfg0 ⟨true, fun _ => .ok (some "https://fresh.mp4"),
        fun _ => some "2024-03-01", fun _ => [okSpec]⟩ fs0 0 call1).2.2 ≠ [] ∧
    freshUrlFor ⟨true, fun _ => .error "boom", fun _ => some "2024-03-01",
        fun _ => [okSpec]⟩ call1 "https://s3.amazonaws.com/a.mp4" =
      "https://s3.amazonaws.com/a.mp4" :=
  have h1 := (c6_url_precedence cfg0 fs0 0 call1
    "https://s3.amazonaws.com/a.mp4" "c1" rfl (by decide) rfl (by decide)).1
    ⟨true, fun _ => .ok (some "https://fresh.mp4"), fun _ => some "2024-03-01",
     fun _ => [okSpec]⟩ "https://fresh.mp4" rfl rfl (by decide) (by decide)
    (by decide) ⟨okSpec, [], rfl⟩
  have h2 := (c6_url_precedence cfg0 fs0 0 call1
    "https://s3.amazonaws.com/a.mp4" "c1" rfl (by decide) rfl (by decide)).2
    ⟨true, fun _ => .error "boom", fun _ => some "2024-03-01",
     fun _ => [okSpec]⟩ rfl (Or.inr ⟨"boom", rfl⟩) (by decide) (by decide)
    ⟨okSpec, [], rfl⟩
  ⟨h1.1, h1.2.1, h2.1⟩

theorem rrl_spacing (rl : RL) (now : Nat) (h : rl.lastCallTime ≤ now) :
    rl.lastCallTime + minTimeBetweenCalls rl ≤
      ((respectRateLimit rl now).1).lastCallTime := by
  unfold respectRateLimit minTimeBetweenCalls
  by_cases h1 : rl.resetTime < now
  · simp only [h1, if_true, ite_true]
    by_cases h2 : rl.callsPerDay ≤ 0
    · simp only [h2, if_true, ite_true]
      generalize 1000 / rl.callsPerSecond = q
      split <;> omega
    · simp only [h2, if_false, ite_false]
      generalize 1000 / rl.callsPerSecond = q
      split <;> omega
  · simp only [h1, if_false, ite_false]
    by_cases h2 : rl.callsPerDay ≤ rl.currentCalls
    · simp only [h2, if_true, ite_true]
      generalize 1000 / rl.callsPerSecond = q
      split <;> omega
    · simp only [h2, if_false, ite_false]
      generalize 1000 / rl.callsPerSecond = q
      split <;> omega

theorem rrl_lastCallTime_eq (rl : RL) (now : Nat) :
    ((respectRateLimit rl now).1).lastCallTime = (respectRateLimit rl now).2 := rfl



theorem rrl_daily_reset (rl : RL) (now : Nat) (h1 : rl.resetTime < now) :
    ((respectRateLimit rl now).1).resetTime = now + msPerDay ∧
    (0 < rl.callsPerDay → ((respectRateLimit rl now).1).currentCalls = 1) := by
  unfold respectRateLimit
  constructor
  · simp only [h1, if_true, ite_true]
    by_cases h2 : rl.callsPerDay ≤ 0 <;> simp [h2]
  · intro hpos
    have h2 : ¬ rl.callsPerDay ≤ 0 := by omega
    simp only [h1, h2, if_true, ite_true, if_false, ite_false]

theorem rrl_ceiling (rl : RL) (now : Nat) (h1 : ¬ rl.resetTime < now)
    (h2 : rl.callsPerDay ≤ rl.currentCalls) :
    rl.resetTime ≤ (respectRateLimit rl now).2 ∧
    ((respectRateLimit rl now).1).currentCalls = 1 := by
  unfold respectRateLimit minTimeBetweenCalls
  simp only [h1, h2, if_true, ite_true, if_false, ite_false]
  constructor
  · generalize 1000 / rl.callsPerSecond = q
    split <;> omega
  · trivial

/-- C8 counterexample: signed-URL resolution performs a network request with
zero rate-limiter interactions, so the rate limiter does not run before
every network attempt. -/
theorem c8_counterexample :
    countReq (getSignedMediaUrl "c1"
      ⟨.ok ⟨some "https://u.mp4"⟩, .ok ⟨none⟩, .ok ⟨none⟩⟩).2 = 1 ∧
    countRLC (getSignedMediaUrl "c1"
      ⟨.ok ⟨some "https://u.mp4"⟩, .ok ⟨none⟩, .ok ⟨none⟩⟩).2 = 0 := by
  constructor <;> decide

/-- C8 (amended): the rate limiter gates every media-download attempt of
`downloadVideo` (one `respectRateLimit` invocation per network attempt),
resetting its daily counter when the 24-hour window has elapsed, suspending
until the window's reset time when the daily ceiling is reached, and
otherwise guaranteeing that consecutive download attempts are separated by
at least `1000 / callsPerSecond + 50` milliseconds (the new last-call stamp
is the completion time of the wait).  Signed-URL resolution, however, is not
rate-limited: `getSignedMediaUrl` performs its network requests without any
rate-limiter interaction. -/
theorem c8_rate_limiter_amended :
    (∀ (rl : RL) (now : Nat), rl.lastCallTime ≤ now →
      rl.lastCallTime + minTimeBetweenCalls rl ≤
        ((respectRateLimit rl now).1).lastCallTime ∧
      ((respectRateLimit rl now).1).lastCallTime =
        (respectRateLimit rl now).2) ∧
    (∀ (rl : RL) (now : Nat), rl.resetTime < now →
      ((respectRateLimit rl now).1).resetTime = now + msPerDay ∧
      (0 < rl.callsPerDay → ((respectRateLimit rl now).1).currentCalls = 1)) ∧
    (∀ (rl : RL) (now : Nat), ¬ rl.resetTime < now →
      rl.callsPerDay ≤ rl.currentCalls →
      rl.resetTime ≤ (respectRateLimit rl now).2) ∧
    (∀ (cfg : Cfg) (fs : FS) (url fn : Option String) (r m d : Nat)
      (ats : List AttemptSpec),
      countRLC (downloadVideo cfg fs url fn r m d ats).2.2 =
        countUnauthReq (downloadVideo cfg fs url fn r m d ats).2.2) ∧
    (∀ (cid : String) (o : SOracle),
      countRLC (getSignedMediaUrl cid o).2 = 0) := by
  refine ⟨fun rl now h => ⟨rrl_spacing rl now h, rrl_lastCallTime_eq rl now⟩,
    fun rl now h1 => rrl_daily_reset rl now h1,
    fun rl now h1 h2 => (rrl_ceiling rl now h1 h2).1,
    fun cfg fs url fn r m d ats =>
      (dv_trace_props ats cfg fs url fn r m d).2.1,
    fun cid o => ?_⟩
  unfold getSignedMediaUrl
  cases o.put1 with
  | ok b =>
    by_cases hb : truthyO b.url = true <;> simp [hb, countRLC, isRLC]
  | error pe =>
    cases o.put2 with
    | ok b2 =>
      by_cases hb : truthyO b2.url = true <;> simp [hb, countRLC, isRLC]
    | error e2 => simp [countRLC, isRLC]

theorem c8_rate_limiter_amended_witness :
    ((⟨2, 10000, 5, 1000000, 700⟩ : RL).lastCallTime +
      minTimeBetweenCalls ⟨2, 10000, 5, 1000000, 700⟩ ≤
      ((respectRateLimit ⟨2, 10000, 5, 1000000, 700⟩ 800).1).lastCallTime ∧
      ((respectRateLimit ⟨2, 10000, 5, 1000000, 700⟩ 800).1).lastCallTime =
        (respectRateLimit ⟨2, 10000, 5, 1000000, 700⟩ 800).2) ∧
    (((respectRateLimit ⟨2, 10000, 5, 1000, 700⟩ 2000).1).resetTime =
        2000 + msPerDay ∧
      (0 < (⟨2, 10000, 5, 1000, 700⟩ : RL).callsPerDay →
        ((respectRateLimit ⟨2, 10000, 5, 1000, 700⟩ 2000).1).currentCalls = 1)) ∧
    ((⟨2, 10, 10, 5000, 700⟩ : RL).resetTime ≤
      (respectRateLimit ⟨2, 10, 10, 5000, 700⟩ 800).2) ∧
    countRLC (downloadVideo cfg0 fs0 (some "https://s3.amazonaws.com/a.mp4")
      (some "f.mp4") 0 3 2000 [okSpec]).2.2 =
      countUnauthReq (downloadVideo cfg0 fs0
        (some "https://s3.amazonaws.com/a.mp4") (some "f.mp4") 0 3 2000
        [okSpec]).2.2 ∧
    countRLC (getSignedMediaUrl "c1"
      ⟨.ok ⟨some "https://u.mp4"⟩, .ok ⟨none⟩, .ok ⟨none⟩⟩).2 = 0 :=
  ⟨c8_rate_limiter_amended.1 ⟨2, 10000, 5, 1000000, 700⟩ 800 (by decide),
   c8_rate_limiter_amended.2.1 ⟨2, 10000, 5, 1000, 700⟩ 2000 (by decide),
   c8_rate_limiter_amended.2.2.1 ⟨2, 10, 10, 5000, 700⟩ 800 (by decide)
     (by decide),
   c8_rate_limiter_amended.2.2.2.1 cfg0 fs0
     (some "https://s3.amazonaws.com/a.mp4") (some "f.mp4") 0 3 2000 [okSpec],
   c8_rate_limiter_amended.2.2.2.2 "c1"
     ⟨.ok ⟨some "https://u.mp4"⟩, .ok ⟨none⟩, .ok ⟨none⟩⟩⟩

/-- C9 counterexample: with directory creation failing, the pipeline still
returns normally — the mkdir error is converted into a per-item Failure
entry and the next call is processed; the run is not aborted. -/
theorem c9_counterexample :
    (downloadVideosFromExtensiveCalls ⟨none, true, "EACCES"⟩
      (envOf fun _ => [okSpec]) ⟨[], []⟩ [call1, callNoUrl]).1 = [] ∧
    (downloadVideosFromExtensiveCalls ⟨none, true, "EACCES"⟩
      (envOf fun _ => [okSpec]) ⟨[], []⟩ [call1, callNoUrl]).2.1 =
      [⟨some "c1", "Weekly Sync",
        FailReason.errMsg "Could not create downloads directory: EACCES"⟩,
       ⟨some "c3", "No Media",
        FailReason.reason "No video URL in extensive call data"⟩] ∧
    (processCalls ⟨none, true, "EACCES"⟩ (envOf fun _ => [okSpec]) ⟨[], []⟩ 0
      [call1, callNoUrl]).1.length = 2 := by
  refine ⟨?_, ?_, ?_⟩ <;> decide

/-- C9 (amended): when the storage directory cannot be created,
`downloadVideo` does throw — but the pipeline's per-item catch converts the
thrown error into an accumulated Failure entry (`error` field carrying the
"Could not create downloads directory" message) and continues with the
remaining calls; the failure does not propagate to the top level and the run
is not aborted. -/
theorem c9_mkdir_amended (cfg : Cfg) (env : Env) (fs : FS) (idx : Nat)
    (c : Call) (cs : List Call) (hmk : cfg.mkdirFails = true)
    (hdir : dirFor cfg ∉ fs.dirs) (hv : truthyO (videoUrlOf c) = true) :
    (downloadVideo cfg fs
      (some (freshUrlFor env c ((videoUrlOf c).getD "")))
      (some (filenameFor env c ((videoUrlOf c).getD ""))) 0 3 2000
      (env.attemptsOf idx)).1 =
      DlResult.thrown
        ("Could not create downloads directory: " ++ cfg.mkdirErrMsg) ∧
    (processCall cfg env fs idx c).1 =
      POut.fail ⟨some (truthyOr (metaIdOf c) "unknown"), callTitleOf c,
        FailReason.errMsg
          ("Could not create downloads directory: " ++ cfg.mkdirErrMsg)⟩ ∧
    (processCall cfg env fs idx c).2.1 = fs ∧
    (processCalls cfg env fs idx (c :: cs)).1.length = cs.length + 1 := by
  have hne : freshUrlFor env c ((videoUrlOf c).getD "") ≠ "" :=
    freshUrlFor_ne_empty env c _ (truthyO_getD _ hv)
  have hdl := dv_mkdir_fail cfg fs
    (freshUrlFor env c ((videoUrlOf c).getD ""))
    (some (filenameFor env c ((videoUrlOf c).getD ""))) 0 3 2000
    (env.attemptsOf idx) hne hdir hmk
  refine ⟨by rw [hdl], ?_, ?_, ?_⟩
  · simp only [processCall, hv, if_true, hdl]
  · simp only [processCall, hv, if_true, hdl]
  · simpa using processCalls_length cfg env (c :: cs) fs idx

theorem c9_mkdir_amended_witness :
    (downloadVideo ⟨none, true, "EACCES"⟩ ⟨[], []⟩
      (some (freshUrlFor (envOf fun _ => [okSpec]) call1
        ((videoUrlOf call1).getD "")))
      (some (filenameFor (envOf fun _ => [okSpec]) call1
        ((videoUrlOf call1).getD ""))) 0 3 2000
      ((envOf fun _ => [okSpec]).attemptsOf 0)).1 =
      DlResult.thrown "Could not create downloads directory: EACCES" ∧
    (processCall ⟨none, true, "EACCES"⟩ (envOf fun _ => [okSpec]) ⟨[], []⟩ 0
      call1).1 =
      POut.fail ⟨some (truthyOr (metaIdOf call1) "unknown"),
        callTitleOf call1,
        FailReason.errMsg "Could not create downloads directory: EACCES"⟩ ∧
    (processCall ⟨none, true, "EACCES"⟩ (envOf fun _ => [okSpec]) ⟨[], []⟩ 0
      call1).2.1 = (⟨[], []⟩ : FS) ∧
    (processCalls ⟨none, true, "EACCES"⟩ (envOf fun _ => [okSpec]) ⟨[], []⟩ 0
      (call1 :: [callNoUrl])).1.length = [callNoUrl].length + 1 :=
  c9_mkdir_amended ⟨none, true, "EACCES"⟩ (envOf fun _ => [okSpec]) ⟨[], []⟩ 0
    call1 [callNoUrl] rfl (by decide) (by decide)

end GongExport
